import Mathlib

/-!
Shallow embedding of the CRMLYZ client-management module: the client
filtering computation (`filteredClients`), the details-view and
delete-confirmation state transitions of the client list component, and the
login submit handler. JavaScript dates are modelled by their epoch time,
with `none` standing for an Invalid Date (NaN time); JS string operations
are modelled over Lean strings.
-/

namespace CRM

/-- Model of a JS `Date` value: `some t` is a valid date whose epoch time is
`t`; `none` is an Invalid Date (its time is NaN). -/
abbrev JSDate := Option Int

/-- Model of date-fns `isValid d`: the date is not an Invalid Date. -/
def isValid (d : JSDate) : Bool := d.isSome

/-- Model of date-fns `isAfter d e`: `d.getTime() > e.getTime()`; comparisons
with NaN are false. -/
def isAfter (d e : JSDate) : Bool :=
  match d, e with
  | some x, some y => decide (y < x)
  | _, _ => false

/-- Model of date-fns `isBefore d e`: `d.getTime() < e.getTime()`; comparisons
with NaN are false. -/
def isBefore (d e : JSDate) : Bool :=
  match d, e with
  | some x, some y => decide (x < y)
  | _, _ => false

/-- Does `needle` occur at the head of `hay`? (helper for JS `includes`). -/
def charsLead (needle hay : List Char) : Bool :=
  match needle, hay with
  | [], _ => true
  | _ :: _, [] => false
  | a :: as, b :: bs => a == b && charsLead as bs

/-- Does `needle` occur contiguously anywhere in `hay`? -/
def charsContain (hay needle : List Char) : Bool :=
  match hay with
  | [] => needle.isEmpty
  | c :: rest => charsLead needle (c :: rest) || charsContain rest needle

/-- Model of JS `hay.includes(needle)` on strings: contiguous substring
containment (the empty needle is always contained). -/
def strIncludes (hay needle : String) : Bool :=
  charsContain hay.toList needle.toList

/-- Model of JS `s.toLowerCase()` (ASCII case folding on the string's
characters). -/
def toLowerCase (s : String) : String :=
  ⟨s.data.map Char.toLower⟩

/-- Model of the `Client` type from `@/types/client` (the fields the client
list component reads). `createdAt` is a string in the source and is only ever
consumed through `new Date(client.createdAt)`; it is modelled by that parse
result, a `JSDate` (`none` when the string is unparseable). -/
structure Client where
  id : String
  fullName : String
  email : String
  phone : String
  companyName : Option String
  address : Option String
  notes : Option String
  tags : Option (List String)
  createdAt : JSDate
  deriving Repr, DecidableEq

/-- The `dateRange` object of `ClientFilterParams`: both bounds are optional
fields (`fromDate` models `from`, which is a Lean keyword). A present bound is
a JS `Date` object, which may itself be an Invalid Date. -/
structure DateRangeFilter where
  fromDate : Option JSDate
  toDate : Option JSDate
  deriving Repr, DecidableEq

/-- Model of `ClientFilterParams`. -/
structure ClientFilterParams where
  search : String
  tag : Option String
  dateRange : Option DateRangeFilter
  deriving Repr, DecidableEq

/-- The initial filter state of the component
(`useState<ClientFilterParams>({search: "", tag: undefined, dateRange: undefined})`). -/
def defaultFilterParams : ClientFilterParams :=
  { search := "", tag := none, dateRange := none }

/-- JS truthiness of an optional string (`!x` is true exactly when `x` is
`undefined` or the empty string). -/
def strTruthy (s : Option String) : Bool :=
  match s with
  | none => false
  | some t => !(t == "")

/-- The `searchMatch` conjunct of the filter predicate:
`!filterParams.search || client.fullName.toLowerCase().includes(...) || client.email... || client.companyName?... || false`.
An absent `companyName` makes the optional-chaining term `undefined`, which
`|| false` turns into `false`. -/
def searchMatch (filterParams : ClientFilterParams) (client : Client) : Bool :=
  filterParams.search == "" ||
  strIncludes (toLowerCase client.fullName) (toLowerCase filterParams.search) ||
  strIncludes (toLowerCase client.email) (toLowerCase filterParams.search) ||
  (match client.companyName with
   | some cn => strIncludes (toLowerCase cn) (toLowerCase filterParams.search)
   | none => false)

/-- The `tagMatch` conjunct:
`!filterParams.tag || client.tags?.includes(filterParams.tag) || false`.
Note `!filterParams.tag` is JS truthiness: it is true both for an absent tag
and for the empty-string tag. -/
def tagMatch (filterParams : ClientFilterParams) (client : Client) : Bool :=
  !(strTruthy filterParams.tag) ||
  (match client.tags, filterParams.tag with
   | some ts, some t => ts.contains t
   | _, _ => false)

/-- The `dateMatch` conjunct: starts at `true`; when
`filterParams.dateRange?.from || filterParams.dateRange?.to` (a present `Date`
object is always truthy, even an Invalid Date), each bound that is present and
valid is conjoined as a strict comparison against
`new Date(client.createdAt)`. -/
def dateMatch (filterParams : ClientFilterParams) (client : Client) : Bool :=
  match filterParams.dateRange with
  | none => true
  | some dr =>
    if dr.fromDate.isSome || dr.toDate.isSome then
      let createdDate := client.createdAt
      let m1 : Bool :=
        match dr.fromDate with
        | some f => if isValid f then isAfter createdDate f else true
        | none => true
      let m2 : Bool :=
        match dr.toDate with
        | some t => if isValid t then isBefore createdDate t else true
        | none => true
      m1 && m2
    else true

/-- The filter closure passed to `clients.filter(...)`: all three conjuncts
must hold. -/
def clientMatches (filterParams : ClientFilterParams) (client : Client) : Bool :=
  searchMatch filterParams client &&
  tagMatch filterParams client &&
  dateMatch filterParams client

/-- `filteredClients = clients.filter(client => ...)`. -/
def filteredClients (clients : List Client) (filterParams : ClientFilterParams) :
    List Client :=
  clients.filter (clientMatches filterParams)

/-- The search predicate as the spec states it: a case-insensitive substring
match of the search string against `fullName`, `email`, or `companyName`,
an absent `companyName` never matching. -/
def searchHit (s : String) (client : Client) : Bool :=
  strIncludes (toLowerCase client.fullName) (toLowerCase s) ||
  strIncludes (toLowerCase client.email) (toLowerCase s) ||
  (match client.companyName with
   | some cn => strIncludes (toLowerCase cn) (toLowerCase s)
   | none => false)

/-- The tag predicate as the spec states it: the client's `tags` contains the
filter tag under exact string equality; absent `tags` never matches. -/
def clientHasTag (t : String) (client : Client) : Bool :=
  match client.tags with
  | some ts => ts.contains t
  | none => false

/-- The details-view row click handler:
`setShowDetails(client.id === showDetails ? null : client.id)`.
State `none` is Hidden, `some id` is Showing(id). -/
def toggleShowDetails (showDetails : Option String) (clientId : String) :
    Option String :=
  if showDetails == some clientId then none else some clientId

/-- The delete-confirmation confirm button handler:
`if (clientToDelete) { onDeleteClient(clientToDelete.id); setClientToDelete(null); }`.
State `none` is Idle, `some c` is PendingDelete(c). Returns the next state
and the list of ids passed to the `onDeleteClient` collaborator (the call is
fire-and-forget: its outcome is not an input to the transition). -/
def confirmDeleteClick (clientToDelete : Option Client) :
    Option Client × List String :=
  match clientToDelete with
  | some c => (none, [c.id])
  | none => (clientToDelete, [])

/-- The "Edit Client" button of the details dialog:
`const client = clients.find(c => c.id === showDetails); if (client) { onEditClient(client); setShowDetails(null); }`.
Returns the next `showDetails` state and the list of clients passed to the
`onEditClient` collaborator. -/
def editClientClick (clients : List Client) (showDetails : Option String) :
    Option String × List Client :=
  match clients.find? (fun c => some c.id == showDetails) with
  | some client => (none, [client])
  | none => (showDetails, [])

/-- A call to the `toast` collaborator, as issued by the login page. -/
structure ToastCall where
  title : String
  description : String
  destructive : Bool
  deriving Repr, DecidableEq

/-- The `handleLogin` submit handler of the login page, modelled over the
outcome of the awaited `login` collaborator promise (`loginSucceeds`): empty
email or password short-circuits with an error toast; otherwise a resolved
login toasts success and navigates to the dashboard, and a rejected login is
caught and toasts a fixed generic error without navigating. Returns the toast
calls and the routes passed to `navigate`. -/
def handleLogin (email password : String) (loginSucceeds : Bool) :
    List ToastCall × List String :=
  if email == "" || password == "" then
    ([{ title := "Error",
        description := "Please enter both email and password",
        destructive := true }], [])
  else if loginSucceeds then
    ([{ title := "Success",
        description := "You have successfully logged in",
        destructive := false }], ["/dashboard"])
  else
    ([{ title := "Error",
        description := "Failed to log in. Please check your credentials.",
        destructive := true }], [])

/-- The generic login-failure toast issued in the `catch` block. -/
def loginFailureToast : ToastCall :=
  { title := "Error",
    description := "Failed to log in. Please check your credentials.",
    destructive := true }

/-- Concrete client: tagged, valid creation date. -/
def clientAcme : Client :=
  { id := "1", fullName := "Acme Corp", email := "a@x.com", phone := "555",
    companyName := some "Acme Holdings", address := none, notes := none,
    tags := some ["VIP"], createdAt := some 100 }

/-- Concrete client: no tags field, valid creation date. -/
def clientNoTags : Client :=
  { id := "2", fullName := "Beta LLC", email := "b@x.com", phone := "556",
    companyName := none, address := none, notes := none,
    tags := none, createdAt := some 200 }

/-- Concrete client: unparseable `createdAt` (Invalid Date). -/
def clientBadDate : Client :=
  { id := "3", fullName := "Gamma Inc", email := "g@x.com", phone := "557",
    companyName := none, address := none, notes := none,
    tags := some ["VIP"], createdAt := none }

/-- Concrete client: creation time strictly inside the range (0, 10). -/
def clientMid : Client :=
  { id := "4", fullName := "Delta Co", email := "d@x.com", phone := "558",
    companyName := none, address := none, notes := none,
    tags := none, createdAt := some 5 }

/-- Filter state with the empty string as the tag filter. -/
def filtersEmptyTag : ClientFilterParams :=
  { search := "", tag := some "", dateRange := none }

/-- Filter state with only a valid `from` bound. -/
def filtersFromOnly : ClientFilterParams :=
  { search := "", tag := none,
    dateRange := some { fromDate := some (some 0), toDate := none } }

/-- The search conjunct is the no-filter test disjoined with the spec-level
search predicate. -/
theorem searchMatch_eq_searchHit (p : ClientFilterParams) (c : Client) :
    searchMatch p c = ((p.search == "") || searchHit p.search c) := by
  simp [searchMatch, searchHit, Bool.or_assoc]

/-- C1: with a non-empty search string, every client returned by
`filteredClients` matches the case-insensitive search predicate on
`fullName`, `email` or `companyName` (absent `companyName` never matching),
and no input client satisfying that predicate together with the other active
filters is excluded. -/
theorem search_filter_sound_and_complete (L : List Client)
    (p : ClientFilterParams) (hs : p.search ≠ "") :
    (∀ c ∈ filteredClients L p, searchHit p.search c = true) ∧
    (∀ c ∈ L, searchHit p.search c = true → tagMatch p c = true →
      dateMatch p c = true → c ∈ filteredClients L p) := by
  have hbeq : (p.search == "") = false := beq_eq_false_iff_ne.mpr hs
  constructor
  · intro c hc
    have hm := (List.mem_filter.mp hc).2
    simp only [clientMatches, Bool.and_eq_true] at hm
    have hsm := hm.1.1
    rw [searchMatch_eq_searchHit, hbeq, Bool.false_or] at hsm
    exact hsm
  · intro c hcl hhit htag hdate
    refine List.mem_filter.mpr ⟨hcl, ?_⟩
    simp only [clientMatches, Bool.and_eq_true]
    refine ⟨⟨?_, htag⟩, hdate⟩
    rw [searchMatch_eq_searchHit, hhit, Bool.or_true]

/-- Witness for C1 at a concrete collection and search string. -/
theorem search_filter_sound_and_complete_witness :
    clientAcme ∈ filteredClients [clientAcme]
      { search := "acme", tag := none, dateRange := none } :=
  (search_filter_sound_and_complete [clientAcme]
      { search := "acme", tag := none, dateRange := none } (by decide)).2
    clientAcme (by decide) (by decide) (by decide) (by decide)

/-- C2 fails as stated: with the tag filter set to the empty string (a set
tag filter), a client with absent `tags` is returned, because `!filterParams.tag`
treats the empty string as falsy and disables the tag filter; the claimed
result (the subset whose `tags` contains the tag) is empty. -/
theorem tag_filter_counterexample :
    filteredClients [clientNoTags] filtersEmptyTag = [clientNoTags] ∧
    List.filter (clientHasTag "") [clientNoTags] = [] :=
  ⟨by decide, by decide⟩

/-- C2 amended: for every non-empty tag filter `t` (search empty, no date
range), `filteredClients` returns exactly the sublist of clients whose `tags`
contains `t` under exact string equality; clients with absent `tags` are
excluded. -/
theorem tag_filter_exact_subset (L : List Client) (t : String) (ht : t ≠ "") :
    filteredClients L { search := "", tag := some t, dateRange := none } =
      List.filter (clientHasTag t) L := by
  have ht' : (t == "") = false := beq_eq_false_iff_ne.mpr ht
  have hpoint : ∀ c : Client,
      clientMatches { search := "", tag := some t, dateRange := none } c
        = clientHasTag t c := by
    intro c
    simp only [clientMatches, searchMatch, tagMatch, dateMatch, strTruthy,
      clientHasTag, ht']
    cases c.tags with
    | none => simp
    | some ts => simp
  unfold filteredClients
  rw [funext hpoint]

/-- Witness for the amended C2 at a concrete collection and tag. -/
theorem tag_filter_exact_subset_witness :
    filteredClients [clientAcme, clientNoTags]
      { search := "", tag := some "VIP", dateRange := none } =
      List.filter (clientHasTag "VIP") [clientAcme, clientNoTags] :=
  tag_filter_exact_subset [clientAcme, clientNoTags] "VIP" (by decide)

/-- C3: with a valid `from` bound `d1` and a valid `to` bound `d2`
(`d1 < d2`), every client returned by `filteredClients` has a valid
`createdAt` strictly between the two bounds; boundary-equal timestamps are
excluded and the two bounds combine by logical AND. -/
theorem date_range_strict_bounds (L : List Client) (s : String)
    (tg : Option String) (d1 d2 : Int) (hlt : d1 < d2) (c : Client)
    (hc : c ∈ filteredClients L
      { search := s, tag := tg,
        dateRange := some { fromDate := some (some d1),
                            toDate := some (some d2) } }) :
    ∃ t : Int, c.createdAt = some t ∧ d1 < t ∧ t < d2 := by
  have hm := (List.mem_filter.mp hc).2
  simp only [clientMatches, Bool.and_eq_true] at hm
  have hd := hm.2
  simp only [dateMatch, isValid, isAfter, isBefore] at hd
  cases hca : c.createdAt with
  | none => rw [hca] at hd; simp at hd
  | some tt =>
    rw [hca] at hd
    simp only [Option.isSome_some, Bool.or_self, if_true, Bool.and_eq_true,
      decide_eq_true_eq] at hd
    exact ⟨tt, rfl, hd.1, hd.2⟩

/-- Witness for C3 at a concrete client inside the range. -/
theorem date_range_strict_bounds_witness :
    ∃ t : Int, clientMid.createdAt = some t ∧ (0 : Int) < t ∧ t < 10 :=
  date_range_strict_bounds [clientMid] "" none 0 10 (by decide) clientMid
    (by decide)

/-- C4: a present but invalid `from` bound together with a valid `to` bound
filters exactly as if `from` were absent: the invalid bound is silently not
applied. -/
theorem invalid_from_ignored (L : List Client) (s : String)
    (tg : Option String) (d2 : Int) :
    filteredClients L
      { search := s, tag := tg,
        dateRange := some { fromDate := some none, toDate := some (some d2) } } =
    filteredClients L
      { search := s, tag := tg,
        dateRange := some { fromDate := none, toDate := some (some d2) } } := by
  have hpoint : ∀ c : Client,
      clientMatches
        { search := s, tag := tg,
          dateRange := some { fromDate := some none, toDate := some (some d2) } }
        c
        = clientMatches
        { search := s, tag := tg,
          dateRange := some { fromDate := none, toDate := some (some d2) } }
        c := by
    intro c
    simp [clientMatches, searchMatch, tagMatch, dateMatch, isValid]
  unfold filteredClients
  rw [funext hpoint]

/-- C5: the default (empty) filter state returns the input collection
unchanged, and every filter state yields an order-preserving sublist of the
input. -/
theorem empty_filters_identity_and_order (L : List Client)
    (p : ClientFilterParams) :
    filteredClients L defaultFilterParams = L ∧
    List.Sublist (filteredClients L p) L := by
  constructor
  · unfold filteredClients
    refine List.filter_eq_self.mpr ?_
    intro c _
    simp [clientMatches, searchMatch, tagMatch, dateMatch, defaultFilterParams,
      strTruthy]
  · exact List.filter_sublist L

/-- C6: confirming the delete dialog from PendingDelete(c) calls the delete
collaborator exactly once with `c.id` and moves the state to Idle (the
collaborator's outcome is not consulted); confirming from Idle calls it zero
times. -/
theorem confirm_delete_once_then_idle (c : Client) :
    confirmDeleteClick (some c) = (none, [c.id]) ∧
    confirmDeleteClick none = (none, []) :=
  ⟨rfl, rfl⟩

/-- C7 fails as stated: starting from Showing("1"), toggling client id "1"
twice leaves the state at Showing("1"), not Hidden (the first toggle hides,
the second re-shows). -/
theorem toggle_twice_counterexample :
    toggleShowDetails (toggleShowDetails (some "1") "1") "1" = some "1" :=
  by decide

/-- C7 amended: from every starting state other than Showing(X), toggling X
twice returns to Hidden; Hidden toggles to Showing(X), re-selecting the
showing id returns to Hidden, and selecting a different id switches directly
to Showing of the new id. -/
theorem toggle_details_transitions (s : Option String) (X Y : String)
    (h : s ≠ some X) (hY : Y ≠ X) :
    toggleShowDetails (toggleShowDetails s X) X = none ∧
    toggleShowDetails none X = some X ∧
    toggleShowDetails (some X) X = none ∧
    toggleShowDetails (some Y) X = some X := by
  have h1 : (s == some X) = false := beq_eq_false_iff_ne.mpr h
  have h2 : (Y == X) = false := beq_eq_false_iff_ne.mpr hY
  refine ⟨?_, ?_, ?_, ?_⟩
  · simp [toggleShowDetails, h1]
  · simp [toggleShowDetails]
  · simp [toggleShowDetails]
  · simp [toggleShowDetails, h2]

/-- Witness for the amended C7 at concrete ids. -/
theorem toggle_details_transitions_witness :
    toggleShowDetails (toggleShowDetails none "1") "1" = none ∧
    toggleShowDetails none "1" = some "1" ∧
    toggleShowDetails (some "1") "1" = none ∧
    toggleShowDetails (some "2") "1" = some "1" :=
  toggle_details_transitions none "1" "2" (by decide) (by decide)

/-- C8: from Showing(i), the edit button resolves the client by id in the
current collection; when it resolves, the edit collaborator is called with
the resolved client and the state becomes Hidden; when no client with that
id exists, no collaborator is called and the state is unchanged (a no-op,
no error). -/
theorem edit_click_resolves_or_noop (clients : List Client) (i : String) :
    (∀ cl, clients.find? (fun c => c.id == i) = some cl →
        editClientClick clients (some i) = (none, [cl])) ∧
    (clients.find? (fun c => c.id == i) = none →
        editClientClick clients (some i) = (some i, [])) := by
  constructor
  · intro cl hf
    simp [editClientClick, hf]
  · intro hf
    simp [editClientClick, hf]

/-- Witness for C8: a resolvable id edits and hides; an unknown id is a
no-op. -/
theorem edit_click_resolves_or_noop_witness :
    editClientClick [clientAcme] (some "1") = (none, [clientAcme]) ∧
    editClientClick [clientAcme] (some "9") = (some "9", []) :=
  ⟨(edit_click_resolves_or_noop [clientAcme] "1").1 clientAcme (by decide),
   (edit_click_resolves_or_noop [clientAcme] "9").2 (by decide)⟩

/-- C9: with non-empty credentials, a rejected login promise produces exactly
the fixed generic failure toast and no navigation; navigation is issued only
when the login promise resolves. -/
theorem login_rejection_no_navigation (email password : String) (ok : Bool)
    (he : email ≠ "") (hp : password ≠ "") :
    (handleLogin email password false).1 = [loginFailureToast] ∧
    (handleLogin email password false).2 = [] ∧
    ((handleLogin email password ok).2 ≠ [] → ok = true) := by
  have he' : (email == "") = false := beq_eq_false_iff_ne.mpr he
  have hp' : (password == "") = false := beq_eq_false_iff_ne.mpr hp
  refine ⟨?_, ?_, ?_⟩
  · simp [handleLogin, he', hp', loginFailureToast]
  · simp [handleLogin, he', hp']
  · intro hnav
    cases ok with
    | true => rfl
    | false =>
      exfalso
      exact hnav (by simp [handleLogin, he', hp'])

/-- Witness for C9 at concrete credentials. -/
theorem login_rejection_no_navigation_witness :
    (handleLogin "a@x.com" "pw" false).1 = [loginFailureToast] ∧
    (handleLogin "a@x.com" "pw" false).2 = [] :=
  ⟨(login_rejection_no_navigation "a@x.com" "pw" false (by decide)
      (by decide)).1,
   (login_rejection_no_navigation "a@x.com" "pw" false (by decide)
      (by decide)).2.1⟩

/-- C10: a client whose `createdAt` does not parse (an Invalid Date) is
excluded by `filteredClients` whenever at least one valid date bound is set,
because both strict date comparisons against NaN are false. -/
theorem invalid_createdAt_excluded (L : List Client) (p : ClientFilterParams)
    (dr : DateRangeFilter) (hdr : p.dateRange = some dr)
    (hbound : (∃ d : Int, dr.fromDate = some (some d)) ∨
              (∃ d : Int, dr.toDate = some (some d)))
    (c : Client) (hinv : c.createdAt = none) :
    c ∉ filteredClients L p := by
  intro hc
  have hm := (List.mem_filter.mp hc).2
  simp only [clientMatches, Bool.and_eq_true] at hm
  have hd := hm.2
  simp only [dateMatch, hdr] at hd
  rcases hbound with ⟨d, hf⟩ | ⟨d, ht2⟩
  · rw [hf] at hd
    simp [hinv, isValid, isAfter] at hd
  · rw [ht2] at hd
    simp [hinv, isValid, isBefore] at hd

/-- Witness for C10 at a concrete client with an unparseable `createdAt`. -/
theorem invalid_createdAt_excluded_witness :
    clientBadDate ∉ filteredClients [clientBadDate] filtersFromOnly :=
  invalid_createdAt_excluded [clientBadDate] filtersFromOnly
    { fromDate := some (some 0), toDate := none } rfl (Or.inl ⟨0, rfl⟩)
    clientBadDate rfl

end CRM
